import Mathlib

/-!
Verification of the social-interaction core of the vinverse backend
(Django/DRF).  The Python views in `gamerlink/views.py` and `chat/views.py`
are shallowly embedded as pure Lean functions over an explicit database
state.  Users are represented by their numeric ids; usernames appearing in
notification payload strings are rendered from ids via `toString`.
Machine behaviour that the views rely on from the framework is modelled
explicitly: `get_or_create` as find-then-append, `order_by` as a stable
sort, an exception raised inside a request handler as an `Except.error`
carrying the database state at the moment the exception escapes (Django
runs in autocommit mode here: writes already issued are not rolled back).
-/

/-- Python truthiness of an optional string (None and the empty string are
falsy). -/
def pyTruthy : Option String → Bool
  | none => false
  | some s => !s.isEmpty

/-- Python `x or ''` on an optional string. -/
def optStr : Option String → String
  | none => ""
  | some s => s

/-- Python substring test `needle in hay`. -/
def strContains (hay needle : String) : Bool :=
  needle.isEmpty || (hay.splitOn needle).length > 1

/-- Django `field__icontains=needle` on a nullable text field: NULL never
matches; otherwise a case-insensitive substring test. -/
def icontains (hay : Option String) (needle : String) : Bool :=
  match hay with
  | none => false
  | some h => strContains h.toLower needle.toLower

/-! ### Stable sorting (the model of Django `order_by` / Python `list.sort`)

`insertSorted le a l` puts `a` in front of the first element `b` of `l`
with `le a b`; `order_by le l` is the resulting insertion sort.  For a
total preorder `le` this is exactly a stable sort: elements that compare
equal keep their relative input order. -/

def insertSorted (le : α → α → Bool) (a : α) : List α → List α
  | [] => [a]
  | b :: l => if le a b then a :: b :: l else b :: insertSorted le a l

def order_by (le : α → α → Bool) : List α → List α
  | [] => []
  | a :: l => insertSorted le a (order_by le l)

theorem mem_insertSorted (le : α → α → Bool) (a x : α) (l : List α) :
    x ∈ insertSorted le a l ↔ x = a ∨ x ∈ l := by
  induction l with
  | nil => simp [insertSorted]
  | cons b l ih =>
      simp only [insertSorted]
      split
      · simp
      · simp only [List.mem_cons, ih]
        tauto

theorem mem_order_by (le : α → α → Bool) (x : α) (l : List α) :
    x ∈ order_by le l ↔ x ∈ l := by
  induction l with
  | nil => simp [order_by]
  | cons a l ih =>
      simp [order_by, mem_insertSorted, ih]

theorem pairwise_insertSorted (le : α → α → Bool)
    (htot : ∀ a b, le a b = true ∨ le b a = true)
    (htr : ∀ a b c, le a b = true → le b c = true → le a c = true)
    (a : α) (l : List α) (h : l.Pairwise (fun x y => le x y = true)) :
    (insertSorted le a l).Pairwise (fun x y => le x y = true) := by
  induction l with
  | nil => simp [insertSorted]
  | cons b l ih =>
      rcases h with _ | ⟨hb, hl⟩
      simp only [insertSorted]
      split
      · rename_i hab
        refine List.Pairwise.cons ?_ (List.Pairwise.cons hb hl)
        intro y hy
        rcases List.mem_cons.mp hy with rfl | hyl
        · exact hab
        · exact htr a b y hab (hb y hyl)
      · rename_i hab
        refine List.Pairwise.cons ?_ (ih hl)
        intro y hy
        rcases (mem_insertSorted le a y l).mp hy with rfl | hyl
        · rcases htot y b with h1 | h1
          · exact absurd h1 (by simpa using hab)
          · exact h1
        · exact hb y hyl

theorem pairwise_order_by (le : α → α → Bool)
    (htot : ∀ a b, le a b = true ∨ le b a = true)
    (htr : ∀ a b c, le a b = true → le b c = true → le a c = true)
    (l : List α) :
    (order_by le l).Pairwise (fun x y => le x y = true) := by
  induction l with
  | nil => simp [order_by]
  | cons a l ih => exact pairwise_insertSorted le htot htr a _ ih

theorem insertSorted_split (le : α → α → Bool) (a : α) (l : List α) :
    ∃ l1 l2, l = l1 ++ l2 ∧ insertSorted le a l = l1 ++ a :: l2 ∧
      ∀ b ∈ l1, le a b = false := by
  induction l with
  | nil => exact ⟨[], [], rfl, rfl, by simp⟩
  | cons b l ih =>
      simp only [insertSorted]
      split
      · exact ⟨[], b :: l, rfl, rfl, by simp⟩
      · rename_i hab
        obtain ⟨l1, l2, hsplit, hins, hall⟩ := ih
        refine ⟨b :: l1, l2, by simp [hsplit], by simp [hins], ?_⟩
        intro c hc
        rcases List.mem_cons.mp hc with rfl | hcl
        · simpa using hab
        · exact hall c hcl

theorem filter_insertSorted_pos (le : α → α → Bool) (p : α → Bool) (a : α)
    (l : List α) (ha : p a = true)
    (hcompat : ∀ b, le a b = false → p b = false) :
    (insertSorted le a l).filter p = a :: l.filter p := by
  obtain ⟨l1, l2, hsplit, hins, hall⟩ := insertSorted_split le a l
  have h1 : l1.filter p = [] := by
    apply List.filter_eq_nil_iff.mpr
    intro b hb
    simp [hcompat b (hall b hb)]
  rw [hins, hsplit]
  simp [List.filter_append, h1, ha]

theorem filter_insertSorted_neg (le : α → α → Bool) (p : α → Bool) (a : α)
    (l : List α) (ha : p a = false) :
    (insertSorted le a l).filter p = l.filter p := by
  obtain ⟨l1, l2, hsplit, hins, _⟩ := insertSorted_split le a l
  rw [hins, hsplit]
  simp [List.filter_append, ha]

/-- Stability of the sort: for every key value `q`, the elements whose key
is `q` appear in the sorted output exactly in their input order. -/
theorem order_by_stable {β : Type} [LinearOrder β] (key : α → β)
    (l : List α) (q : β) :
    (order_by (fun x y => decide (key y ≤ key x)) l).filter
        (fun x => decide (key x = q)) =
      l.filter (fun x => decide (key x = q)) := by
  induction l with
  | nil => simp [order_by]
  | cons a l ih =>
      simp only [order_by]
      by_cases hq : key a = q
      · rw [filter_insertSorted_pos _ _ _ _ (by simp [hq])]
        · simp [hq, ih]
        · intro b hb
          have : ¬ key b ≤ key a := by simpa using hb
          have : key b ≠ q := fun hbq => this (le_of_eq (hbq.trans hq.symm))
          simp [this]
      · rw [filter_insertSorted_neg _ _ _ _ (by simp [hq])]
        simp [hq, ih]

/-! ### Data model

Rows of the relational store, mirroring the Django models that the views
manipulate.  Foreign keys are numeric ids; nullable text columns are
`Option String`. -/

/-- `gamerlink.Friendship`: a directed follow edge. -/
structure Friendship where
  follower : Nat
  following : Nat
  is_accepted : Bool
deriving DecidableEq, Repr

/-- `notifications.Notification` (the fields the views read or use as the
`get_or_create` lookup key, plus the payload text). -/
structure Notification where
  user : Nat
  notification_type : String
  related_user : Nat
  title : String
  message : String
  related_url : String
deriving DecidableEq, Repr

/-- `gamerlink.Post`. -/
structure Post where
  id : Nat
  author : Nat
  content : String
  created_at : Nat
deriving DecidableEq, Repr

/-- `gamerlink.PostLike` (unique on (post, user)). -/
structure PostLike where
  post_id : Nat
  user : Nat
deriving DecidableEq, Repr

/-- `gamerlink.PostComment`. -/
structure PostComment where
  post_id : Nat
  author : Nat
  content : String
deriving DecidableEq, Repr

/-- `gamerlink.Team`: members is a ManyToMany, i.e. a duplicate-free set. -/
structure Team where
  id : Nat
  max_members : Nat
  members : List Nat
deriving DecidableEq, Repr

/-- `gamerlink.LFTPost` (the fields the recommendation action reads). -/
structure LFTPost where
  id : Nat
  author : Nat
  game : Option String
  rank : Option String
  play_style : Option String
  is_active : Bool
deriving DecidableEq, Repr

/-- `chat.Room`. -/
structure Room where
  id : Nat
  name : String
  display_name : String
  room_type : String
  game : Option String
  team : Option Nat
  is_private : Bool
  created_by : Option Nat
  members : List Nat
  is_active : Bool
deriving DecidableEq, Repr

/-- `chat.Message`. -/
structure Message where
  id : Nat
  room : Nat
  author : Nat
  content : String
  created_at : Nat
deriving DecidableEq, Repr

/-- The whole persistent store the embedded views act on.  `users` is the
set of existing user ids. -/
structure DB where
  users : List Nat
  friendships : List Friendship
  notifications : List Notification
  posts : List Post
  post_likes : List PostLike
  post_comments : List PostComment
  teams : List Team
  lft_posts : List LFTPost
  rooms : List Room
  messages : List Message
deriving DecidableEq, Repr

/-- HTTP status codes the embedded views answer with. -/
inductive HttpStatus where
  | s200 | s201 | s400 | s404 | s405
deriving DecidableEq, Repr

/-! ### Follow graph (`gamerlink.views.follow_user`) -/

/-- `Friendship.objects.get / get_or_create` lookup on the unique
(follower, following) pair. -/
def findFriendship (l : List Friendship) (a b : Nat) : Option Friendship :=
  l.find? (fun f => f.follower == a && f.following == b)

/-- The `Notification.objects.get_or_create` lookup key used by
`follow_user`: (user, notification_type, related_user). -/
def findNotification (l : List Notification) (u : Nat) (t : String)
    (r : Nat) : Option Notification :=
  l.find? (fun n => n.user == u && n.notification_type == t &&
    n.related_user == r)

/-- The notification row `follow_user` creates (defaults of its
`get_or_create`); usernames are rendered from ids. -/
def followNotif (requester target : Nat) : Notification :=
  { user := target
    notification_type := "follow"
    related_user := requester
    title := "New Follower"
    message := toString requester ++ " started following you"
    related_url := "/profile/" ++ toString requester }

/-- `gamerlink.views.follow_user`.  `method` is the HTTP method
("POST" follows, "DELETE" unfollows).  `notifFails` models the
notification write raising an exception; in this view that exception is
caught and logged, so the function is total.  Returns the response status
and the new store. -/
def follow_user (db : DB) (requester user_id : Nat) (method : String)
    (notifFails : Bool) : HttpStatus × DB :=
  if !db.users.contains user_id then (.s404, db)
  else if requester == user_id then (.s400, db)
  else if method == "POST" then
    match findFriendship db.friendships requester user_id with
    | some friendship =>
        -- If friendship already existed, ensure it is accepted.
        let friendships :=
          if friendship.is_accepted then db.friendships
          else db.friendships.map (fun g =>
            if g.follower == requester && g.following == user_id then
              { g with is_accepted := true }
            else g)
        (.s200, { db with friendships := friendships })
    | none =>
        let db1 := { db with friendships :=
          db.friendships ++ [⟨requester, user_id, true⟩] }
        -- Notification fan-out, wrapped in try/except in the source:
        -- on failure the store is left as is and the call still succeeds.
        let db2 :=
          if notifFails then db1
          else
            match findNotification db1.notifications user_id "follow"
                requester with
            | some _ => db1
            | none => { db1 with notifications :=
                db1.notifications ++ [followNotif requester user_id] }
        (.s201, db2)
  else if method == "DELETE" then
    match findFriendship db.friendships requester user_id with
    | some _ =>
        (.s200, { db with friendships := db.friendships.filter (fun f =>
          !(f.follower == requester && f.following == user_id)) })
    | none => (.s400, db)
  else (.s405, db)

/-- Number of stored follow edges for the ordered pair (a, b). -/
def edgeCount (db : DB) (a b : Nat) : Nat :=
  (db.friendships.filter (fun f => f.follower == a && f.following == b)).length

/-- Number of stored `follow` notifications to `b` about `a`. -/
def followNotifCount (db : DB) (b a : Nat) : Nat :=
  (db.notifications.filter (fun n => n.user == b &&
    n.notification_type == "follow" && n.related_user == a)).length

/-! ### Feed (`gamerlink.views.user_feed`) -/

/-- Descending comparison on post creation time (model of
`order_by('-created_at')`). -/
def postDescLe (a b : Post) : Bool := decide (b.created_at ≤ a.created_at)

/-- `gamerlink.views.user_feed`: the list of posts returned for the given
viewer and `filter` query parameter (default "all"). -/
def user_feed (db : DB) (viewer : Nat) (filter_type : String) : List Post :=
  let posts :=
    if filter_type == "my" then
      db.posts.filter (fun p => p.author == viewer)
    else if filter_type == "following" then
      let following_ids := (db.friendships.filter (fun f =>
        f.follower == viewer && f.is_accepted)).map (fun f => f.following)
      db.posts.filter (fun p => following_ids.contains p.author)
    else
      db.posts
  (order_by postDescLe posts).take 100

/-! ### Posts and engagement (`gamerlink.views.PostViewSet`) -/

/-- Accepted followers of a user (the fan-out recipient set of
`perform_create`). -/
def acceptedFollowers (db : DB) (u : Nat) : List Nat :=
  (db.friendships.filter (fun f => f.following == u && f.is_accepted)).map
    (fun f => f.follower)

/-- The notification row `perform_create` writes per follower. -/
def postNotif (follower author : Nat) (content : String) : Notification :=
  { user := follower
    notification_type := "post"
    related_user := author
    title := "New Post"
    message := toString author ++ " posted: " ++ content.take 50 ++ "..."
    related_url := "/feed" }

/-- `PostViewSet.perform_create`: saves the post, then writes one
notification per accepted follower.  The fan-out loop is NOT wrapped in
try/except in the source, so when the notification write raises
(`notifFails` and at least one follower), the exception escapes with the
post already saved: modelled as `Except.error` carrying that state. -/
def perform_create (db : DB) (author : Nat) (pid : Nat) (content : String)
    (created_at : Nat) (notifFails : Bool) : Except DB DB :=
  let db1 := { db with posts :=
    db.posts ++ [{ id := pid, author := author, content := content,
                   created_at := created_at }] }
  let followers := acceptedFollowers db1 author
  if notifFails then
    if followers.isEmpty then .ok db1 else .error db1
  else
    .ok { db1 with notifications := db1.notifications ++
      followers.map (fun f => postNotif f author content) }

/-- The notification row `PostViewSet.like` writes. -/
def likeNotif (liker author : Nat) : Notification :=
  { user := author
    notification_type := "like"
    related_user := liker
    title := "Post Liked"
    message := toString liker ++ " liked your post"
    related_url := "/feed" }

/-- `PostViewSet.like` (POST): idempotent get-or-create of the like; a
notification is written only when the like is new and the liker is not the
post author.  That write is not guarded by try/except, so its failure
(`notifFails`) escapes with the like already saved. -/
def like (db : DB) (requester pid : Nat) (notifFails : Bool) :
    Except DB (HttpStatus × DB) :=
  match db.posts.find? (fun p => p.id == pid) with
  | none => .ok (.s404, db)
  | some post =>
    match db.post_likes.find? (fun l => l.post_id == pid &&
        l.user == requester) with
    | some _ => .ok (.s200, db)
    | none =>
      let db1 := { db with post_likes := db.post_likes ++ [⟨pid, requester⟩] }
      if post.author == requester then .ok (.s201, db1)
      else if notifFails then .error db1
      else .ok (.s201, { db1 with notifications :=
        db1.notifications ++ [likeNotif requester post.author] })

/-- The notification row `PostViewSet.comments` writes. -/
def commentNotif (commenter author : Nat) : Notification :=
  { user := author
    notification_type := "comment"
    related_user := commenter
    title := "New Comment"
    message := toString commenter ++ " commented on your post"
    related_url := "/feed" }

/-- `PostViewSet.comments` (POST): rejects whitespace-only content, saves
the comment, then notifies the post author when the commenter differs.
The notification write is not guarded by try/except. -/
def comments (db : DB) (requester pid : Nat) (content : String)
    (notifFails : Bool) : Except DB (HttpStatus × DB) :=
  match db.posts.find? (fun p => p.id == pid) with
  | none => .ok (.s404, db)
  | some post =>
    let trimmed := content.trim
    if trimmed.isEmpty then .ok (.s400, db)
    else
      let db1 := { db with post_comments :=
        db.post_comments ++ [⟨pid, requester, trimmed⟩] }
      if post.author == requester then .ok (.s201, db1)
      else if notifFails then .error db1
      else .ok (.s201, { db1 with notifications :=
        db1.notifications ++ [commentNotif requester post.author] })

/-! ### Teams (`gamerlink.views.TeamViewSet.join`) -/

/-- `TeamViewSet.join`: rejects with 400 ("Team is full") when the member
count already reaches `max_members`; otherwise adds the requester to the
ManyToMany member set (a no-op when already a member). -/
def join (db : DB) (requester tid : Nat) : HttpStatus × DB :=
  match db.teams.find? (fun t => t.id == tid) with
  | none => (.s404, db)
  | some team =>
    if team.max_members ≤ team.members.length then (.s400, db)
    else
      let team1 :=
        if team.members.contains requester then team
        else { team with members := team.members ++ [requester] }
      (.s200, { db with teams := db.teams.map (fun t =>
        if t.id == tid then team1 else t) })

/-! ### Teammate recommendations (`gamerlink.views.LFTPostViewSet.recommendations`)

The TF-IDF cosine similarity computed by scikit-learn is abstracted as a
parameter `sim : String → String → Option Rat` on the two lowercased
feature strings; `none` models the computation raising (e.g. empty
vocabulary), which the source catches with a bare `except` and replaces by
a substring-overlap fallback score.  All score arithmetic is exact
rational arithmetic. -/

/-- One entry of the recommendation list (the fields the claims are
about). -/
structure Recommendation where
  post_id : Nat
  match_score : Rat
  similarity : Rat
deriving DecidableEq, Repr

/-- The per-candidate scoring step of `recommendations`: the body of the
`for post in lft_posts` loop.  `userRank`/`userTag` are the requester's
`rank or ''` / `gamer_tag or ''`; `gf` the raw `game` query parameter.
Inside the `try`, a `None` candidate game combined with a truthy game
filter raises `AttributeError` on `.lower()`, which the bare `except` also
turns into the fallback score. -/
def scoreLFT (sim : String → String → Option Rat) (userRank userTag : String)
    (gf : Option String) (post : LFTPost) : Recommendation :=
  let user_features := (userRank ++ " " ++ userTag).toLower
  let post_features := (optStr post.rank ++ " " ++ optStr post.game ++ " " ++
    optStr post.play_style).toLower
  let fallback :=
    let ms : Rat :=
      if !userRank.isEmpty && pyTruthy post.rank &&
          (strContains (optStr post.rank).toLower userRank.toLower ||
           strContains userRank.toLower (optStr post.rank).toLower) then
        1/10 + 3/10
      else 1/10
    { post_id := post.id, match_score := ms, similarity := ms }
  match sim user_features post_features with
  | none => fallback
  | some similarity =>
    if pyTruthy gf && post.game == none then fallback
    else
      let ms1 :=
        if !userRank.isEmpty && pyTruthy post.rank &&
            userRank.toLower == (optStr post.rank).toLower then
          similarity + 2/10
        else similarity
      let ms2 :=
        if pyTruthy gf &&
            strContains (optStr post.game).toLower (optStr gf).toLower then
          ms1 + 1/10
        else ms1
      { post_id := post.id, match_score := ms2, similarity := similarity }

/-- The candidate pool of `recommendations`: active LFT posts not authored
by the requester, narrowed by the game filter when it is truthy. -/
def lftPool (db : DB) (requester : Nat) (gf : Option String) : List LFTPost :=
  let pool := db.lft_posts.filter (fun p =>
    p.is_active && !(p.author == requester))
  if pyTruthy gf then pool.filter (fun p => icontains p.game (optStr gf))
  else pool

/-- `LFTPostViewSet.recommendations`: scores every candidate, sorts by
`match_score` descending (Python stable sort) and returns the top 10. -/
def recommendations (sim : String → String → Option Rat) (db : DB)
    (requester : Nat) (userRank userTag : Option String)
    (gf : Option String) : List Recommendation :=
  let pool := lftPool db requester gf
  if pool.isEmpty then []
  else
    let recs := pool.map (scoreLFT sim (optStr userRank) (optStr userTag) gf)
    (order_by (fun x y =>
      decide (Recommendation.match_score y ≤ Recommendation.match_score x))
      recs).take 10

/-! ### Chat (`chat.views`) -/

/-- Members of a team, looked up by id (a dangling foreign key yields no
members). -/
def teamMembers (db : DB) (tid : Nat) : List Nat :=
  match db.teams.find? (fun t => t.id == tid) with
  | none => []
  | some t => t.members

/-- Ascending comparison on message creation time. -/
def msgAscLe (a b : Message) : Bool := decide (a.created_at ≤ b.created_at)

/-- The messages of a room, ordered by creation time. -/
def messagesOfRoom (db : DB) (rid : Nat) : List Message :=
  order_by msgAscLe (db.messages.filter (fun m => m.room == rid))

/-- `chat.views.MessageViewSet.get_queryset`: resolves the `room` query
parameter by unique room name (inactive or missing room gives an empty
list), gates access for team rooms only, and returns the room messages
ordered by creation time.  Note the source checks membership only when
`room_type == 'team'` and the room has a team attached; private rooms are
not gated here. -/
def message_list (db : DB) (requester : Nat) (room_name : Option String) :
    List Message :=
  match room_name with
  | none => []
  | some rn =>
    match db.rooms.find? (fun r => r.name == rn && r.is_active) with
    | none => []
    | some room =>
      if room.room_type == "team" then
        match room.team with
        | some tid =>
          if (teamMembers db tid).contains requester then
            messagesOfRoom db room.id
          else []
        | none => messagesOfRoom db room.id
      else messagesOfRoom db room.id

/-- Lexicographic comparison on (room_type, display_name), the model of
`order_by('room_type', 'display_name')`. -/
def roomLe (a b : Room) : Bool :=
  decide (a.room_type < b.room_type) ||
    (a.room_type == b.room_type && decide (a.display_name ≤ b.display_name))

/-- `chat.views.RoomViewSet.get_queryset`: active rooms narrowed by the
`type`, `game` and `is_private` query parameters, then restricted to
rooms the requester may see: public global/game rooms, team rooms whose
team the requester belongs to, and private rooms whose member set or
creator includes the requester. -/
def room_list (db : DB) (requester : Nat)
    (rt game is_private : Option String) : List Room :=
  let qs : List Room := db.rooms.filter (fun r => r.is_active)
  let qs : List Room :=
    if pyTruthy rt then qs.filter (fun r => r.room_type == optStr rt)
    else qs
  let qs : List Room :=
    if pyTruthy game then qs.filter (fun r => icontains r.game (optStr game))
    else qs
  let qs : List Room := match is_private with
    | some v => qs.filter (fun r => r.is_private == (v.toLower == "true"))
    | none => qs
  let accessible_team_rooms :=
    ((qs.filter (fun r => r.room_type == "team")).filter (fun r =>
      match r.team with
      | some tid => (teamMembers db tid).contains requester
      | none => false)).map (fun r => r.id)
  let accessible_private_rooms :=
    ((qs.filter (fun r => r.room_type == "private" && r.is_private)).filter
      (fun r => r.members.contains requester ||
        r.created_by == some requester)).map (fun r => r.id)
  order_by roomLe (qs.filter (fun r =>
    ((r.room_type == "global" || r.room_type == "game") && !r.is_private) ||
    accessible_team_rooms.contains r.id ||
    accessible_private_rooms.contains r.id))

/-! ### Helper lemmas -/

theorem contains_of_mem {a : Nat} {l : List Nat} (h : a ∈ l) :
    l.contains a = true := by
  simpa using h

theorem find?_eq_none_iff_filter_nil (p : α → Bool) (l : List α) :
    l.find? p = none ↔ l.filter p = [] := by
  simp [List.find?_eq_none, List.filter_eq_nil_iff]

theorem eq_of_length_le_one {l : List α} (h : l.length ≤ 1) {x y : α}
    (hx : x ∈ l) (hy : y ∈ l) : x = y := by
  match l with
  | [] => cases hx
  | [z] =>
      simp only [List.mem_singleton] at hx hy
      rw [hx, hy]
  | a :: b :: t => simp at h

/-- The empty store (used by concrete witnesses and counterexamples). -/
def emptyDB : DB :=
  { users := [], friendships := [], notifications := [], posts := [],
    post_likes := [], post_comments := [], teams := [], lft_posts := [],
    rooms := [], messages := [] }

/-- C8.  For every existing user `u`, follow(u, u) is rejected with a 400
self-reference error before any store access, for either HTTP method: no
edge is stored and the whole store is returned unchanged. -/
theorem follow_self_rejected (db : DB) (u : Nat) (m : String) (nf : Bool)
    (h : u ∈ db.users) : follow_user db u u m nf = (.s400, db) := by
  simp [follow_user, contains_of_mem h, h]

theorem follow_self_rejected_witness :
    1 ∈ ({ emptyDB with users := [1, 2] } : DB).users ∧
      follow_user { emptyDB with users := [1, 2] } 1 1 "POST" false =
        (.s400, { emptyDB with users := [1, 2] }) :=
  ⟨by decide, follow_self_rejected _ 1 "POST" false (by decide)⟩

/-- C9.  For distinct users a ≠ b (b existing), unfollow fails with the
"Not following this user" error (HTTP 400) when no (a, b) edge exists,
leaving the whole store unchanged; when such an edge exists the call
succeeds with 200 and every (a, b) edge is deleted, the rest of the store
being untouched. -/
theorem unfollow_spec (db : DB) (a b : Nat) (hab : a ≠ b)
    (hb : b ∈ db.users) :
    (findFriendship db.friendships a b = none →
      follow_user db a b "DELETE" false = (.s400, db)) ∧
    (findFriendship db.friendships a b ≠ none →
      (follow_user db a b "DELETE" false).1 = .s200 ∧
      (follow_user db a b "DELETE" false).2 =
        { db with friendships := db.friendships.filter (fun f =>
            !(f.follower == a && f.following == b)) } ∧
      findFriendship
        (follow_user db a b "DELETE" false).2.friendships a b = none) := by
  have hne : (a == b) = false := by simp [hab]
  constructor
  · intro hnone
    simp [follow_user, contains_of_mem hb, hb, hne, hnone]
  · intro hsome
    match hfind : findFriendship db.friendships a b with
    | none => exact absurd hfind hsome
    | some f =>
      refine ⟨?_, ?_, ?_⟩
      · simp [follow_user, contains_of_mem hb, hb, hne, hfind]
      · simp [follow_user, contains_of_mem hb, hb, hne, hfind]
      · have hres : (follow_user db a b "DELETE" false).2.friendships =
            db.friendships.filter (fun f =>
              !(f.follower == a && f.following == b)) := by
          simp [follow_user, contains_of_mem hb, hb, hne, hfind]
        rw [hres]
        simp only [findFriendship]
        rw [List.find?_eq_none]
        intro x hx
        have h2 := (List.mem_filter.mp hx).2
        simp only [Bool.not_eq_true'] at h2
        simp [h2]

theorem unfollow_spec_witness :
    (1 : Nat) ≠ 2 ∧ 2 ∈ ({ emptyDB with users := [1, 2] } : DB).users ∧
    (findFriendship ({ emptyDB with users := [1, 2] } : DB).friendships 1 2 =
        none →
      follow_user { emptyDB with users := [1, 2] } 1 2 "DELETE" false =
        (.s400, { emptyDB with users := [1, 2] })) :=
  ⟨by decide, by decide,
    (unfollow_spec { emptyDB with users := [1, 2] } 1 2 (by decide)
      (by decide)).1⟩

theorem find?_append_of_none {p : α → Bool} {l1 l2 : List α}
    (h : l1.find? p = none) : (l1 ++ l2).find? p = l2.find? p := by
  induction l1 with
  | nil => simp
  | cons x l ih =>
      cases hpx : p x with
      | true => rw [List.find?_cons_of_pos _ hpx] at h; cases h
      | false =>
          rw [List.find?_cons_of_neg _ (by simp [hpx])] at h
          rw [List.cons_append, List.find?_cons_of_neg _ (by simp [hpx])]
          exact ih h

/-- C2.  For distinct users a ≠ b (b existing) with no stored (a, b) edge
and no stored follow notification to b about a, following twice in
succession: the first call reports 201 (created), the second 200 (already
following), and afterwards exactly one (a, b) edge and exactly one follow
notification to b about a are stored. -/
theorem follow_twice_idempotent (db : DB) (a b : Nat) (hab : a ≠ b)
    (hb : b ∈ db.users) (he : edgeCount db a b = 0)
    (hn : followNotifCount db b a = 0) :
    (follow_user db a b "POST" false).1 = .s201 ∧
    (follow_user (follow_user db a b "POST" false).2 a b "POST" false).1 =
      .s200 ∧
    edgeCount
      (follow_user (follow_user db a b "POST" false).2 a b "POST" false).2
      a b = 1 ∧
    followNotifCount
      (follow_user (follow_user db a b "POST" false).2 a b "POST" false).2
      b a = 1 := by
  have hne : (a == b) = false := by simp [hab]
  have hef : db.friendships.filter (fun f =>
      f.follower == a && f.following == b) = [] :=
    List.length_eq_zero.mp he
  have hnf : db.notifications.filter (fun n => n.user == b &&
      n.notification_type == "follow" && n.related_user == a) = [] :=
    List.length_eq_zero.mp hn
  have hfe : findFriendship db.friendships a b = none :=
    (find?_eq_none_iff_filter_nil _ _).mpr hef
  have hfn : findNotification db.notifications b "follow" a = none :=
    (find?_eq_none_iff_filter_nil _ _).mpr hnf
  have hcall1 : follow_user db a b "POST" false =
      (.s201, { db with
        friendships := db.friendships ++ [⟨a, b, true⟩],
        notifications := db.notifications ++ [followNotif a b] }) := by
    simp [follow_user, contains_of_mem hb, hb, hne, hfe, hfn]
  rw [hcall1]
  have hfe2 : findFriendship
      (db.friendships ++ [⟨a, b, true⟩]) a b = some ⟨a, b, true⟩ := by
    unfold findFriendship at hfe ⊢
    rw [find?_append_of_none hfe]
    simp
  have hcall2 : follow_user
      { db with
        friendships := db.friendships ++ [⟨a, b, true⟩],
        notifications := db.notifications ++ [followNotif a b] }
      a b "POST" false =
      (.s200, { db with
        friendships := db.friendships ++ [⟨a, b, true⟩],
        notifications := db.notifications ++ [followNotif a b] }) := by
    simp [follow_user, contains_of_mem hb, hb, hne, hfe2]
  rw [hcall2]
  refine ⟨rfl, rfl, ?_, ?_⟩
  · simp [edgeCount, List.filter_append, hef]
  · simp [followNotifCount, List.filter_append, hnf, followNotif]

theorem follow_twice_idempotent_witness :
    ((1 : Nat) ≠ 2 ∧ 2 ∈ ({ emptyDB with users := [1, 2] } : DB).users ∧
      edgeCount { emptyDB with users := [1, 2] } 1 2 = 0 ∧
      followNotifCount { emptyDB with users := [1, 2] } 2 1 = 0) ∧
    ((follow_user { emptyDB with users := [1, 2] } 1 2 "POST" false).1 =
        .s201 ∧
      (follow_user
        (follow_user { emptyDB with users := [1, 2] } 1 2 "POST" false).2
        1 2 "POST" false).1 = .s200 ∧
      edgeCount
        (follow_user
          (follow_user { emptyDB with users := [1, 2] } 1 2 "POST" false).2
          1 2 "POST" false).2 1 2 = 1 ∧
      followNotifCount
        (follow_user
          (follow_user { emptyDB with users := [1, 2] } 1 2 "POST" false).2
          1 2 "POST" false).2 2 1 = 1) :=
  ⟨⟨by decide, by decide, by decide, by decide⟩,
    follow_twice_idempotent { emptyDB with users := [1, 2] } 1 2 (by decide)
      (by decide) (by decide) (by decide)⟩

/-- C10.  For distinct users a ≠ b (b existing) with at most one stored
(a, b) edge, a POST follow call always succeeds (201 on creation, 200 on
replay) and afterwards every stored (a, b) edge is accepted: a new edge is
created accepted, a pre-existing unaccepted edge is upgraded.  When an
edge pre-existed the call reports 200 and writes no notification. -/
theorem follow_results_in_accepted_edge (db : DB) (a b : Nat) (nf : Bool)
    (hab : a ≠ b) (hb : b ∈ db.users) (huniq : edgeCount db a b ≤ 1) :
    ((follow_user db a b "POST" nf).1 = .s201 ∨
      (follow_user db a b "POST" nf).1 = .s200) ∧
    (∃ f ∈ (follow_user db a b "POST" nf).2.friendships,
      f.follower = a ∧ f.following = b ∧ f.is_accepted = true) ∧
    (∀ f ∈ (follow_user db a b "POST" nf).2.friendships,
      f.follower = a → f.following = b → f.is_accepted = true) ∧
    (∀ f0, findFriendship db.friendships a b = some f0 →
      (follow_user db a b "POST" nf).1 = .s200 ∧
      (follow_user db a b "POST" nf).2.notifications = db.notifications) := by
  have hne : (a == b) = false := by simp [hab]
  match hfind : findFriendship db.friendships a b with
  | none =>
    have h1 : (follow_user db a b "POST" nf).1 = .s201 := by
      cases nf
      · cases hfn : findNotification db.notifications b "follow" a <;>
          simp [follow_user, contains_of_mem hb, hb, hne, hfind, hfn]
      · simp [follow_user, contains_of_mem hb, hb, hne, hfind]
    have hfr : (follow_user db a b "POST" nf).2.friendships =
        db.friendships ++ [⟨a, b, true⟩] := by
      cases nf
      · cases hfn : findNotification db.notifications b "follow" a <;>
          simp [follow_user, contains_of_mem hb, hb, hne, hfind, hfn]
      · simp [follow_user, contains_of_mem hb, hb, hne, hfind]
    refine ⟨Or.inl h1, ?_, ?_, ?_⟩
    · rw [hfr]
      exact ⟨⟨a, b, true⟩, by simp, rfl, rfl, rfl⟩
    · rw [hfr]
      intro f hf hfa hfb
      rcases List.mem_append.mp hf with hmem | hmem
      · have := List.find?_eq_none.mp hfind f hmem
        simp [hfa, hfb] at this
      · simp only [List.mem_singleton] at hmem
        rw [hmem]
    · intro f0 h
      cases h
  | some f =>
    have h200 : (follow_user db a b "POST" nf).1 = .s200 := by
      simp [follow_user, contains_of_mem hb, hb, hne, hfind]
    have hfr : (follow_user db a b "POST" nf).2.friendships =
        (if f.is_accepted then db.friendships
         else db.friendships.map (fun g =>
           if g.follower == a && g.following == b then
             { g with is_accepted := true }
           else g)) := by
      simp [follow_user, contains_of_mem hb, hb, hne, hfind]
    have hnt : (follow_user db a b "POST" nf).2.notifications =
        db.notifications := by
      simp [follow_user, contains_of_mem hb, hb, hne, hfind]
    have hfind1 : db.friendships.find? (fun x =>
        x.follower == a && x.following == b) = some f := hfind
    have hpf0 := List.find?_some hfind1
    have hpf : (f.follower == a && f.following == b) = true := hpf0
    have hfa : f.follower = a ∧ f.following = b := by simpa using hpf
    have hmem : f ∈ db.friendships := List.mem_of_find?_eq_some hfind1
    by_cases hacc : f.is_accepted = true
    · rw [if_pos hacc] at hfr
      refine ⟨Or.inr h200, ?_, ?_, fun f0 _ => ⟨h200, hnt⟩⟩
      · rw [hfr]
        exact ⟨f, hmem, hfa.1, hfa.2, hacc⟩
      · rw [hfr]
        intro g hg hga hgb
        have hgp : (g.follower == a && g.following == b) = true := by
          simp [hga, hgb]
        have hgf : g ∈ db.friendships.filter (fun x =>
            x.follower == a && x.following == b) :=
          List.mem_filter.mpr ⟨hg, hgp⟩
        have hff : f ∈ db.friendships.filter (fun x =>
            x.follower == a && x.following == b) :=
          List.mem_filter.mpr ⟨hmem, hpf⟩
        rw [eq_of_length_le_one huniq hgf hff]
        exact hacc
    · rw [if_neg hacc] at hfr
      refine ⟨Or.inr h200, ?_, ?_, fun f0 _ => ⟨h200, hnt⟩⟩
      · rw [hfr]
        refine ⟨{ f with is_accepted := true }, ?_, hfa.1, hfa.2, rfl⟩
        exact List.mem_map.mpr ⟨f, hmem, by simp [hpf]⟩
      · rw [hfr]
        intro g hg hga hgb
        obtain ⟨y, hy, hyg⟩ := List.mem_map.mp hg
        by_cases hpy : (y.follower == a && y.following == b) = true
        · rw [if_pos hpy] at hyg
          rw [← hyg]
        · rw [if_neg hpy] at hyg
          rw [← hyg] at hga hgb
          simp [hga, hgb] at hpy

/-- Witness store for C10: an existing unaccepted (1, 2) edge. -/
def dbC10 : DB :=
  { emptyDB with users := [1, 2], friendships := [⟨1, 2, false⟩] }

theorem follow_results_in_accepted_edge_witness :
    ((1 : Nat) ≠ 2 ∧ 2 ∈ dbC10.users ∧ edgeCount dbC10 1 2 ≤ 1) ∧
    (∀ f ∈ (follow_user dbC10 1 2 "POST" false).2.friendships,
      f.follower = 1 → f.following = 2 → f.is_accepted = true) :=
  ⟨⟨by decide, by decide, by decide⟩,
    (follow_results_in_accepted_edge dbC10 1 2 false (by decide) (by decide)
      (by decide)).2.2.1⟩

/-- C6.  For every post and user, when the acting user is the post's
author, liking and commenting never write a notification (and never
raise): both calls return a success response with the notification store
untouched. -/
theorem own_content_no_notification (db : DB) (u pid : Nat) (c : String)
    (nf : Bool) (post : Post)
    (hfind : db.posts.find? (fun p => p.id == pid) = some post)
    (hauthor : post.author = u) :
    (∃ s db1, like db u pid nf = .ok (s, db1) ∧
      db1.notifications = db.notifications) ∧
    (∃ s db2, comments db u pid c nf = .ok (s, db2) ∧
      db2.notifications = db.notifications) := by
  have hau : (post.author == u) = true := by simp [hauthor]
  constructor
  · match hl : db.post_likes.find? (fun l => l.post_id == pid &&
        l.user == u) with
    | some _ =>
        exact ⟨.s200, db, by simp [like, hfind, hl], rfl⟩
    | none =>
        refine ⟨.s201, { db with post_likes := db.post_likes ++ [⟨pid, u⟩] },
          ?_, rfl⟩
        simp [like, hfind, hl, hau]
  · by_cases ht : c.trim.isEmpty = true
    · exact ⟨.s400, db, by simp [comments, hfind, ht], rfl⟩
    · refine ⟨.s201, { db with post_comments :=
        db.post_comments ++ [⟨pid, u, c.trim⟩] }, ?_, rfl⟩
      simp [comments, hfind, ht, hau]

/-- Witness store for C6: user 1 owns post 7. -/
def dbC6 : DB :=
  { emptyDB with users := [1], posts := [⟨7, 1, "hi", 0⟩] }

theorem own_content_no_notification_witness :
    (dbC6.posts.find? (fun p => p.id == 7) = some ⟨7, 1, "hi", 0⟩ ∧
      (⟨7, 1, "hi", 0⟩ : Post).author = 1) ∧
    (∃ s db1, like dbC6 1 7 false = .ok (s, db1) ∧
      db1.notifications = dbC6.notifications) :=
  ⟨⟨by decide, by decide⟩,
    (own_content_no_notification dbC6 1 7 "nice" false ⟨7, 1, "hi", 0⟩
      (by decide) (by decide)).1⟩

/-- C4.  For every viewer and filter mode, the feed only contains stored
posts permitted by the mode ("my": viewer-authored; "following": authored
by a user the viewer follows through an accepted edge; anything else:
unrestricted), is ordered by non-increasing creation time, and holds at
most 100 posts. -/
theorem user_feed_spec (db : DB) (viewer : Nat) (ft : String) :
    (user_feed db viewer ft).length ≤ 100 ∧
    (user_feed db viewer ft).Pairwise
      (fun p q => q.created_at ≤ p.created_at) ∧
    (∀ p ∈ user_feed db viewer ft,
      p ∈ db.posts ∧
      (ft = "my" → p.author = viewer) ∧
      (ft = "following" → ∃ f ∈ db.friendships,
        f.follower = viewer ∧ f.is_accepted = true ∧
          f.following = p.author)) := by
  have key : ∃ posts0,
      user_feed db viewer ft = (order_by postDescLe posts0).take 100 ∧
      ∀ p ∈ posts0, p ∈ db.posts ∧
        (ft = "my" → p.author = viewer) ∧
        (ft = "following" → ∃ f ∈ db.friendships,
          f.follower = viewer ∧ f.is_accepted = true ∧
            f.following = p.author) := by
    by_cases hmy : ft = "my"
    · refine ⟨db.posts.filter (fun p => p.author == viewer),
        by simp [user_feed, hmy], ?_⟩
      intro p hp
      have h1 := List.mem_filter.mp hp
      refine ⟨h1.1, fun _ => by simpa using h1.2, fun hfo => ?_⟩
      rw [hmy] at hfo
      exact absurd hfo (by decide)
    · by_cases hfo : ft = "following"
      · refine ⟨db.posts.filter (fun p =>
          ((db.friendships.filter (fun f =>
            f.follower == viewer && f.is_accepted)).map
              (fun f => f.following)).contains p.author),
          by simp [user_feed, hfo, hmy], ?_⟩
        intro p hp
        have h1 := List.mem_filter.mp hp
        refine ⟨h1.1, fun h2 => absurd (hfo ▸ h2 : (("following":String)) = "my") (by decide), fun _ => ?_⟩
        have h3 : p.author ∈ (db.friendships.filter (fun f =>
            f.follower == viewer && f.is_accepted)).map
              (fun f => f.following) := by
          simpa using h1.2
        obtain ⟨f, hf, hfp⟩ := List.mem_map.mp h3
        have h4 := List.mem_filter.mp hf
        have h5 : f.follower = viewer ∧ f.is_accepted = true := by
          simpa using h4.2
        exact ⟨f, h4.1, h5.1, h5.2, hfp⟩
      · refine ⟨db.posts, by simp [user_feed, hmy, hfo], ?_⟩
        intro p hp
        exact ⟨hp, fun h => absurd h hmy, fun h => absurd h hfo⟩
  obtain ⟨posts0, heq, hmem⟩ := key
  rw [heq]
  have htot : ∀ a b : Post, postDescLe a b = true ∨ postDescLe b a = true := by
    intro a b
    simp only [postDescLe, decide_eq_true_eq]
    exact Nat.le_total _ _
  have htr : ∀ a b c : Post, postDescLe a b = true → postDescLe b c = true →
      postDescLe a c = true := by
    intro a b c
    simp only [postDescLe, decide_eq_true_eq]
    omega
  refine ⟨List.length_take_le _ _, ?_, ?_⟩
  · have hp := pairwise_order_by postDescLe htot htr posts0
    have hp2 := hp.sublist (List.take_sublist 100 _)
    exact hp2.imp (fun h => by simpa [postDescLe] using h)
  · intro p hp
    have h1 : p ∈ order_by postDescLe posts0 := List.mem_of_mem_take hp
    exact hmem p ((mem_order_by _ _ _).mp h1)

theorem user_feed_spec_witness :
    (user_feed { emptyDB with posts := [⟨1, 3, "a", 2⟩, ⟨2, 4, "b", 9⟩] }
        3 "my").length ≤ 100 ∧
    (user_feed { emptyDB with posts := [⟨1, 3, "a", 2⟩, ⟨2, 4, "b", 9⟩] }
        3 "my").Pairwise (fun p q => q.created_at ≤ p.created_at) ∧
    (∀ p ∈ user_feed { emptyDB with
        posts := [⟨1, 3, "a", 2⟩, ⟨2, 4, "b", 9⟩] } 3 "my",
      p ∈ ({ emptyDB with
        posts := [⟨1, 3, "a", 2⟩, ⟨2, 4, "b", 9⟩] } : DB).posts ∧
      ("my" = "my" → p.author = 3) ∧
      ("my" = "following" → ∃ f ∈ ({ emptyDB with
          posts := [⟨1, 3, "a", 2⟩, ⟨2, 4, "b", 9⟩] } : DB).friendships,
        f.follower = 3 ∧ f.is_accepted = true ∧ f.following = p.author)) :=
  user_feed_spec { emptyDB with posts := [⟨1, 3, "a", 2⟩, ⟨2, 4, "b", 9⟩] }
    3 "my"

/-- A team one below capacity whose sole member is user 5. -/
def teamC5 : Team := { id := 0, max_members := 2, members := [5] }

/-- Store for the C5 counterexample. -/
def dbC5 : DB := { emptyDB with users := [5], teams := [teamC5] }

/-- C5 counterexample.  `teamC5` has max_members = 2 and 1 = N-1 members,
yet when its existing member 5 calls join, the call succeeds and the team
still has 1 member, not N = 2: "at N-1 members join always results in N
members" is false because re-joining is a set-semantics no-op. -/
theorem join_rejoin_counterexample :
    teamC5.members.length = teamC5.max_members - 1 ∧
    join dbC5 5 0 = (.s200, dbC5) ∧
    (join dbC5 5 0).2.teams = [teamC5] ∧
    teamC5.members.length ≠ teamC5.max_members := by
  refine ⟨rfl, ?_, ?_, by decide⟩ <;> rfl

/-- C5 as amended.  `join` fails with the capacity error (400) and leaves
the store unchanged when the member count has reached `max_members`; below
capacity it succeeds with the member count grown by one when the joiner
was not yet a member and unchanged (a no-op) when they were, so the
count never exceeds `max_members`. -/
theorem join_capacity_amended (db : DB) (u tid : Nat) (t : Team)
    (hfind : db.teams.find? (fun x => x.id == tid) = some t) :
    (t.max_members ≤ t.members.length → join db u tid = (.s400, db)) ∧
    (t.members.length < t.max_members →
      (join db u tid).1 = .s200 ∧
      ∀ t1 ∈ (join db u tid).2.teams, t1.id = tid →
        t1.members.length ≤ t.max_members ∧
        (u ∉ t.members → t1.members.length = t.members.length + 1) ∧
        (u ∈ t.members → t1.members = t.members)) := by
  constructor
  · intro hcap
    simp [join, hfind, hcap]
  · intro hlt
    have hcap : ¬ t.max_members ≤ t.members.length := by omega
    refine ⟨by simp [join, hfind, hcap], ?_⟩
    have hteams : (join db u tid).2.teams = db.teams.map (fun x =>
        if x.id == tid then
          (if t.members.contains u then t
           else { t with members := t.members ++ [u] })
        else x) := by
      simp [join, hfind, hcap]
    rw [hteams]
    intro t1 ht1 hid
    obtain ⟨y, hy, hyt⟩ := List.mem_map.mp ht1
    by_cases hyid : (y.id == tid) = true
    · rw [if_pos hyid] at hyt
      by_cases hmem : u ∈ t.members
      · have hc : t.members.contains u = true := contains_of_mem hmem
        rw [if_pos hc] at hyt
        rw [← hyt]
        exact ⟨by omega, fun hn => absurd hmem hn, fun _ => rfl⟩
      · have hc : ¬ t.members.contains u = true := by
          simpa using hmem
        rw [if_neg hc] at hyt
        rw [← hyt]
        refine ⟨by simp; omega, fun _ => by simp, fun hmem2 => absurd hmem2 hmem⟩
    · rw [if_neg hyid] at hyt
      rw [← hyt] at hid
      simp [hid] at hyid

theorem join_capacity_amended_witness :
    (dbC5.teams.find? (fun x => x.id == 0) = some teamC5) ∧
    (teamC5.max_members ≤ teamC5.members.length →
      join dbC5 6 0 = (.s400, dbC5)) :=
  ⟨by decide,
    (join_capacity_amended dbC5 6 0 teamC5 (by decide)).1⟩

/-- Unpacking membership in the parameterless room listing: a listed room
is an active stored room that is either a public global/game room, or
shares its id with an accessible team room, or shares its id with an
accessible private room. -/
theorem room_list_mem_cases (db : DB) (u : Nat) (r : Room)
    (hr : r ∈ room_list db u none none none) :
    r ∈ db.rooms ∧ r.is_active = true ∧
    (((r.room_type == "global" || r.room_type == "game") &&
        !r.is_private) = true ∨
     (∃ r2, r2 ∈ db.rooms ∧ r2.room_type = "team" ∧ r2.id = r.id ∧
        ∃ tid, r2.team = some tid ∧ u ∈ teamMembers db tid) ∨
     (∃ r3, r3 ∈ db.rooms ∧ r3.room_type = "private" ∧
        r3.is_private = true ∧ r3.id = r.id ∧
        (u ∈ r3.members ∨ r3.created_by = some u))) := by
  simp only [room_list, pyTruthy, Bool.not_eq_true, if_false] at hr
  rw [mem_order_by] at hr
  have h1 := List.mem_filter.mp hr
  have h2 := List.mem_filter.mp h1.1
  refine ⟨h2.1, h2.2, ?_⟩
  have hcond := h1.2
  simp only [Bool.or_eq_true] at hcond
  rcases hcond with (hpub | hteam) | hpriv
  · exact Or.inl hpub
  · refine Or.inr (Or.inl ?_)
    have hmem : r.id ∈ (((db.rooms.filter (fun x => x.is_active)).filter
        (fun x => x.room_type == "team")).filter (fun x =>
          match x.team with
          | some tid => (teamMembers db tid).contains u
          | none => false)).map (fun x => x.id) := by
      simpa using hteam
    obtain ⟨r2, hr2, hid⟩ := List.mem_map.mp hmem
    have h3 := List.mem_filter.mp hr2
    have h4 := List.mem_filter.mp h3.1
    have h5 := List.mem_filter.mp h4.1
    refine ⟨r2, h5.1, by simpa using h4.2, hid, ?_⟩
    cases hte : r2.team with
    | none => rw [hte] at h3; simp at h3
    | some tid =>
        refine ⟨tid, rfl, ?_⟩
        have h6 := h3.2
        rw [hte] at h6
        simpa using h6
  · refine Or.inr (Or.inr ?_)
    have hmem : r.id ∈ (((db.rooms.filter (fun x => x.is_active)).filter
        (fun x => x.room_type == "private" && x.is_private)).filter (fun x =>
          x.members.contains u || x.created_by == some u)).map
            (fun x => x.id) := by
      simpa using hpriv
    obtain ⟨r3, hr3, hid⟩ := List.mem_map.mp hmem
    have h3 := List.mem_filter.mp hr3
    have h4 := List.mem_filter.mp h3.1
    have h5 := List.mem_filter.mp h4.1
    have h6 : r3.room_type = "private" ∧ r3.is_private = true := by
      simpa using h4.2
    refine ⟨r3, h5.1, h6.1, h6.2, hid, ?_⟩
    have h7 := h3.2
    simp only [Bool.or_eq_true] at h7
    rcases h7 with h7 | h7
    · exact Or.inl (by simpa using h7)
    · exact Or.inr (by simpa using h7)

/-- A private, invitation-only room whose only member and creator is
user 1. -/
def roomSecret : Room :=
  { id := 0, name := "secret", display_name := "Secret",
    room_type := "private", game := none, team := none, is_private := true,
    created_by := some 1, members := [1], is_active := true }

/-- One message in the private room. -/
def msgSecret : Message :=
  { id := 0, room := 0, author := 1, content := "hi", created_at := 5 }

/-- Store for the C3 counterexample. -/
def dbC3 : DB :=
  { emptyDB with
    users := [1, 2]
    rooms := [roomSecret]
    messages := [msgSecret] }

/-- C3 counterexample.  User 2 is neither in the private room's member set
nor its creator, yet listing the room's messages returns the message: the
message endpoint gates team rooms only, so the claimed "no messages for
non-members of a private room" is false (room listing does hide the room
from user 2, as the amended theorem shows). -/
theorem private_room_messages_leak :
    roomSecret.room_type = "private" ∧ roomSecret.members = [1] ∧
    roomSecret.created_by = some 1 ∧
    message_list dbC3 2 (some "secret") = [msgSecret] := by
  refine ⟨rfl, rfl, rfl, ?_⟩
  decide

/-- C3 as amended.  The access predicate gates room listing: a listed
private room has the requester in its member set or as creator, and a
listed team room has the requester in its team.  Message listing, however,
is gated only for team rooms (a non-member of the room's team gets no
messages); for every other room type, including private rooms, the room's
messages are returned regardless of membership. -/
theorem chat_access_gating_amended (db : DB) (u : Nat) (rn : String)
    (room : Room) (hnodup : (db.rooms.map (fun r => r.id)).Nodup)
    (hfind : db.rooms.find? (fun r => r.name == rn && r.is_active) =
      some room) :
    (∀ tid, room.room_type = "team" → room.team = some tid →
      u ∉ teamMembers db tid → message_list db u (some rn) = []) ∧
    (room.room_type ≠ "team" →
      message_list db u (some rn) = messagesOfRoom db room.id) ∧
    (∀ r ∈ room_list db u none none none, r.room_type = "private" →
      u ∈ r.members ∨ r.created_by = some u) ∧
    (∀ r ∈ room_list db u none none none, r.room_type = "team" →
      ∃ tid, r.team = some tid ∧ u ∈ teamMembers db tid) := by
  refine ⟨?_, ?_, ?_, ?_⟩
  · intro tid htype hteam hmem
    have hc : (teamMembers db tid).contains u = false := by simpa using hmem
    simp [message_list, hfind, htype, hteam, hc, hmem]
  · intro htype
    have hne : (room.room_type == "team") = false := by simp [htype]
    simp [message_list, hfind, hne]
  · intro r hr htype
    obtain ⟨hdb, hact, hcases⟩ := room_list_mem_cases db u r hr
    rcases hcases with hpub | ⟨r2, hr2, ht2, hid2, _⟩ | ⟨r3, hr3, ht3, _, hid3, hacc⟩
    · rw [htype] at hpub
      simp at hpub
    · have := List.inj_on_of_nodup_map hnodup hr2 hdb hid2
      rw [this] at ht2
      rw [htype] at ht2
      exact absurd ht2 (by decide)
    · have := List.inj_on_of_nodup_map hnodup hr3 hdb hid3
      rw [this] at hacc
      exact hacc
  · intro r hr htype
    obtain ⟨hdb, hact, hcases⟩ := room_list_mem_cases db u r hr
    rcases hcases with hpub | ⟨r2, hr2, ht2, hid2, htid⟩ | ⟨r3, hr3, ht3, _, hid3, _⟩
    · rw [htype] at hpub
      simp at hpub
    · have := List.inj_on_of_nodup_map hnodup hr2 hdb hid2
      rw [this] at htid
      exact htid
    · have := List.inj_on_of_nodup_map hnodup hr3 hdb hid3
      rw [this] at ht3
      rw [htype] at ht3
      exact absurd ht3 (by decide)

theorem chat_access_gating_amended_witness :
    ((dbC3.rooms.map (fun r => r.id)).Nodup ∧
      dbC3.rooms.find? (fun r => r.name == "secret" && r.is_active) =
        some roomSecret) ∧
    (roomSecret.room_type ≠ "team" →
      message_list dbC3 2 (some "secret") =
        messagesOfRoom dbC3 roomSecret.id) :=
  ⟨⟨by decide, by decide⟩,
    (chat_access_gating_amended dbC3 2 "secret" roomSecret (by decide)
      (by decide)).2.1⟩

/-- Store for the C1 counterexample: user 1 has one accepted follower
(user 2), so creating a post fans out one notification. -/
def dbC1 : DB :=
  { emptyDB with users := [1, 2], friendships := [⟨2, 1, true⟩] }

/-- C1 counterexample.  `perform_create` does not wrap its notification
fan-out in try/except: when the notification write raises, the exception
escapes (the request fails instead of reporting success), with the post
already saved.  This refutes "for every primary mutation ... the error is
caught and logged ... and the operation still reports success": it holds
for follow only. -/
theorem perform_create_fanout_error_propagates :
    acceptedFollowers dbC1 1 = [2] ∧
    perform_create dbC1 1 10 "hello" 0 true =
      .error { dbC1 with posts := [⟨10, 1, "hello", 0⟩] } :=
  ⟨rfl, rfl⟩

/-- C1 as amended.  Only the follow mutation catches (and logs) a failing
notification write: the follow edge is kept and the call still reports
201.  For post creation, like and comment the fan-out write is not
guarded, so its failure escapes and the request fails — while the primary
mutation (the saved post, like or comment) is already committed and is
not undone. -/
theorem fanout_error_handling_amended (db : DB) (a pid cat : Nat)
    (content : String) (post : Post) :
    (∀ b, a ≠ b → b ∈ db.users →
      findFriendship db.friendships a b = none →
      (follow_user db a b "POST" true).1 = .s201 ∧
      (follow_user db a b "POST" true).2 =
        { db with friendships := db.friendships ++ [⟨a, b, true⟩] }) ∧
    (acceptedFollowers db a ≠ [] →
      perform_create db a pid content cat true =
        .error { db with posts := db.posts ++
          [{ id := pid, author := a, content := content,
             created_at := cat }] }) ∧
    (db.posts.find? (fun p => p.id == pid) = some post → post.author ≠ a →
      db.post_likes.find? (fun l => l.post_id == pid && l.user == a) =
        none →
      like db a pid true =
        .error { db with post_likes := db.post_likes ++ [⟨pid, a⟩] }) ∧
    (db.posts.find? (fun p => p.id == pid) = some post → post.author ≠ a →
      content.trim.isEmpty = false →
      comments db a pid content true =
        .error { db with post_comments :=
          db.post_comments ++ [⟨pid, a, content.trim⟩] }) := by
  refine ⟨?_, ?_, ?_, ?_⟩
  · intro b hab hb hnone
    have hne : (a == b) = false := by simp [hab]
    constructor <;>
      simp [follow_user, contains_of_mem hb, hb, hne, hnone]
  · intro hne
    have h2 : (acceptedFollowers db a).isEmpty = false := by
      rcases hl : acceptedFollowers db a with _ | ⟨x, xs⟩
      · exact absurd hl hne
      · rfl
    have hfa : acceptedFollowers { db with posts := db.posts ++
        [{ id := pid, author := a, content := content,
           created_at := cat }] } a = acceptedFollowers db a := rfl
    simp [perform_create, hfa, h2]
  · intro hfind hpa hlk
    have hne2 : (post.author == a) = false := by simp [hpa]
    simp [like, hfind, hlk, hne2]
  · intro hfind hpa htrim
    have hne2 : (post.author == a) = false := by simp [hpa]
    simp [comments, hfind, htrim, hne2]

theorem fanout_error_handling_amended_witness :
    acceptedFollowers dbC1 1 ≠ [] ∧
    perform_create dbC1 1 10 "hello" 0 true =
      .error { dbC1 with posts := dbC1.posts ++
        [{ id := 10, author := 1, content := "hello",
           created_at := 0 }] } :=
  ⟨by decide,
    (fanout_error_handling_amended dbC1 1 10 0 "hello"
      ⟨0, 0, "", 0⟩).2.1 (by decide)⟩

/-- C7.  `recommendations` (for every similarity oracle, store, requester
and game filter) returns at most 10 entries, sorted by non-increasing
match score; the sort is stable, so ties keep input-pool order; every
entry is the score of some pool candidate; and the per-candidate score is
the similarity base plus a 2/10 bonus for a case-insensitive exact rank
match plus a 1/10 bonus when the game filter matches the candidate game —
falling back, whenever the similarity oracle fails, to the 1/10 base plus
3/10 substring-overlap-of-ranks bonus instead of raising. -/
theorem recommendations_spec (sim : String → String → Option Rat) (db : DB)
    (u : Nat) (userRank userTag gf : Option String) :
    (recommendations sim db u userRank userTag gf).length ≤ 10 ∧
    (recommendations sim db u userRank userTag gf).Pairwise
      (fun x y => y.match_score ≤ x.match_score) ∧
    (∀ r ∈ recommendations sim db u userRank userTag gf,
      ∃ post ∈ lftPool db u gf,
        r = scoreLFT sim (optStr userRank) (optStr userTag) gf post) ∧
    (recommendations sim db u userRank userTag gf =
      (order_by (fun x y =>
        decide (Recommendation.match_score y ≤
          Recommendation.match_score x))
        ((lftPool db u gf).map
          (scoreLFT sim (optStr userRank) (optStr userTag) gf))).take 10) ∧
    (∀ q : Rat,
      ((order_by (fun x y =>
        decide (Recommendation.match_score y ≤
          Recommendation.match_score x))
        ((lftPool db u gf).map
          (scoreLFT sim (optStr userRank) (optStr userTag) gf))).filter
            (fun x => decide (Recommendation.match_score x = q))) =
      (((lftPool db u gf).map
        (scoreLFT sim (optStr userRank) (optStr userTag) gf)).filter
          (fun x => decide (Recommendation.match_score x = q)))) ∧
    (∀ post : LFTPost, ∀ s : Rat,
      sim ((optStr userRank ++ " " ++ optStr userTag).toLower)
          ((optStr post.rank ++ " " ++ optStr post.game ++ " " ++
            optStr post.play_style).toLower) = some s →
      (pyTruthy gf && post.game == none) = false →
      (scoreLFT sim (optStr userRank) (optStr userTag) gf post).similarity
          = s ∧
      (scoreLFT sim (optStr userRank) (optStr userTag) gf post).match_score
          = s +
        (if (!(optStr userRank).isEmpty && pyTruthy post.rank &&
            ((optStr userRank).toLower == (optStr post.rank).toLower))
          = true then (2 : Rat)/10 else 0) +
        (if (pyTruthy gf &&
            strContains (optStr post.game).toLower (optStr gf).toLower)
          = true then (1 : Rat)/10 else 0)) ∧
    (∀ post : LFTPost,
      sim ((optStr userRank ++ " " ++ optStr userTag).toLower)
          ((optStr post.rank ++ " " ++ optStr post.game ++ " " ++
            optStr post.play_style).toLower) = none →
      (scoreLFT sim (optStr userRank) (optStr userTag) gf post).match_score
          = (1 : Rat)/10 +
        (if (!(optStr userRank).isEmpty && pyTruthy post.rank &&
            (strContains (optStr post.rank).toLower
              (optStr userRank).toLower ||
             strContains (optStr userRank).toLower
              (optStr post.rank).toLower)) = true
          then (3 : Rat)/10 else 0) ∧
      (scoreLFT sim (optStr userRank) (optStr userTag) gf post).similarity
          = (scoreLFT sim (optStr userRank) (optStr userTag) gf
              post).match_score) := by
  have hglue : recommendations sim db u userRank userTag gf =
      (order_by (fun x y =>
        decide (Recommendation.match_score y ≤
          Recommendation.match_score x))
        ((lftPool db u gf).map
          (scoreLFT sim (optStr userRank) (optStr userTag) gf))).take 10 := by
    by_cases hpool : (lftPool db u gf).isEmpty = true
    · have : lftPool db u gf = [] := by simpa using hpool
      simp [recommendations, hpool, this, order_by]
    · simp only [recommendations, hpool, Bool.false_eq_true, if_false]
  have htot : ∀ x y : Recommendation,
      (decide (Recommendation.match_score y ≤
        Recommendation.match_score x)) = true ∨
      (decide (Recommendation.match_score x ≤
        Recommendation.match_score y)) = true := by
    intro x y
    simp only [decide_eq_true_eq]
    exact le_total _ _
  have htr : ∀ x y z : Recommendation,
      (decide (Recommendation.match_score y ≤
        Recommendation.match_score x)) = true →
      (decide (Recommendation.match_score z ≤
        Recommendation.match_score y)) = true →
      (decide (Recommendation.match_score z ≤
        Recommendation.match_score x)) = true := by
    intro x y z
    simp only [decide_eq_true_eq]
    exact fun h1 h2 => le_trans h2 h1
  refine ⟨?_, ?_, ?_, hglue, ?_, ?_, ?_⟩
  · rw [hglue]
    exact List.length_take_le _ _
  · rw [hglue]
    have hp := pairwise_order_by _ htot htr
      ((lftPool db u gf).map
        (scoreLFT sim (optStr userRank) (optStr userTag) gf))
    have hp2 := hp.sublist (List.take_sublist 10 _)
    exact hp2.imp (fun h => by simpa using h)
  · rw [hglue]
    intro r hr
    have h1 := List.mem_of_mem_take hr
    rw [mem_order_by] at h1
    obtain ⟨post, hpost, hps⟩ := List.mem_map.mp h1
    exact ⟨post, hpost, hps.symm⟩
  · intro q
    exact order_by_stable Recommendation.match_score _ q
  · intro post s hsim hng
    constructor
    · simp [scoreLFT, hsim, hng]
    · simp only [scoreLFT, hsim, hng, Bool.false_eq_true, if_false]
      split <;> split <;> simp
  · intro post hsim
    refine ⟨?_, ?_⟩
    · simp only [scoreLFT, hsim]
      split <;> simp
    · simp only [scoreLFT, hsim]

theorem recommendations_spec_witness :
    ((recommendations (fun _ _ => none) dbC1 1 (some "gold") none
        none).length ≤ 10 ∧
      (recommendations (fun _ _ => none) dbC1 1 (some "gold") none
        none).Pairwise (fun x y => y.match_score ≤ x.match_score)) ∧
    (∀ post : LFTPost,
      (fun _ _ => (none : Option Rat))
          ((optStr (some "gold") ++ " " ++ optStr none).toLower)
          ((optStr post.rank ++ " " ++ optStr post.game ++ " " ++
            optStr post.play_style).toLower) = none →
      (scoreLFT (fun _ _ => none) (optStr (some "gold")) (optStr none)
          none post).match_score = (1 : Rat)/10 +
        (if (!(optStr (some "gold")).isEmpty && pyTruthy post.rank &&
            (strContains (optStr post.rank).toLower
              (optStr (some "gold")).toLower ||
             strContains (optStr (some "gold")).toLower
              (optStr post.rank).toLower)) = true
          then (3 : Rat)/10 else 0) ∧
      (scoreLFT (fun _ _ => none) (optStr (some "gold")) (optStr none)
          none post).similarity =
        (scoreLFT (fun _ _ => none) (optStr (some "gold")) (optStr none)
          none post).match_score) :=
  ⟨⟨(recommendations_spec (fun _ _ => none) dbC1 1 (some "gold") none
        none).1,
    (recommendations_spec (fun _ _ => none) dbC1 1 (some "gold") none
        none).2.1⟩,
    (recommendations_spec (fun _ _ => none) dbC1 1 (some "gold") none
        none).2.2.2.2.2.2⟩
